import Mathlib

/-!
Shallow embedding of `src/portfolio_models.py` (PyTorch networks for a
portfolio RL agent): `AssetEncoder`, `EnhancedPortfolioActor` (with its
attention aggregation) and `PortfolioCritic`.

Modelling conventions:
* floating point tensors are modelled over an arbitrary `LinearOrderedField α`
  (instantiated at `ℚ` for executable claims and at `ℝ` when `exp`/`sqrt` are
  involved); a 2-D tensor `(B, W)` is a `Tensor2`: a width together with the
  list of its rows;
* a Python exception escaping a method is an `Except.error` carrying a
  `TErr` tag naming the raising torch operation; code paths that cannot raise
  are `Except.ok`;
* `torch.manual_seed`-driven random draws are abstracted by a stream
  `rng : ℕ → α` of raw samples in `[-1, 1]`; `uniform_(-lim, lim)` writes
  `lim * rng k`.  `Real.exp` (softmax) and `Real.sqrt` (normalisation
  denominators) are passed as function parameters `e`/`sqrtF` so that the
  definitions stay computable; theorems instantiate them with the real
  functions;
* in-place mutation of module attributes (`self.features_per_asset`,
  lazily (re)built sublayers) is explicit state passing: forwards return the
  updated module next to the output tensor.
-/

namespace Portfolio

/-- Tags for the torch/Python exceptions the modelled operations can raise. -/
inductive TErr : Type
  /-- `torch.cat`: sizes disagree in a non-concatenated dimension. -/
  | catDim0 : TErr
  /-- `nn.Linear` / `nn.LayerNorm` / `nn.BatchNorm1d`: input width does not
  match the layer's expected feature count. -/
  | linShape : TErr
  /-- `Tensor.view`: element count does not match the requested shape. -/
  | viewShape : TErr
  /-- Python `ZeroDivisionError` (integer `%` or `//` by zero). -/
  | divZero : TErr
  /-- `nn.BatchNorm1d` in training mode with batch size `≤ 1`. -/
  | bnBatch : TErr
deriving DecidableEq

variable {α : Type} [LinearOrderedField α]

/-- A 2-D tensor of shape `(rows.length, width)`: a batch of row vectors. -/
structure Tensor2 (α : Type) where
  width : ℕ
  rows : List (List α)
deriving DecidableEq

/-- Rectangularity: every row really has the declared width (always true of a
torch tensor; stated explicitly because rows are lists here). -/
def Tensor2.WF (t : Tensor2 α) : Prop := ∀ r ∈ t.rows, r.length = t.width

instance (t : Tensor2 α) : Decidable t.WF := by
  unfold Tensor2.WF; infer_instance

/-- `Tensor.numel()` of a 2-D tensor: total number of stored scalars. -/
def Tensor2.numel (t : Tensor2 α) : ℕ := (t.rows.map List.length).sum

/-- Dot product of two vectors (a row of a weight matrix with an input). -/
def dot : List α → List α → α
  | [], _ => 0
  | _ :: _, [] => 0
  | a :: as, b :: bs => a * b + dot as bs

/-- `F.relu`. -/
def relu (x : α) : α := max x 0

/-- An `nn.Linear` module: `weight` is `out_features × in_features`, applied
as `x ↦ weight ⬝ x + bias`. -/
structure Linear (α : Type) where
  weight : List (List α)
  bias : List α
deriving DecidableEq

/-- `in_features` of a linear layer, read off its weight. -/
def Linear.inF (l : Linear α) : ℕ := (l.weight.headD []).length

/-- `out_features` of a linear layer. -/
def Linear.outF (l : Linear α) : ℕ := l.weight.length

/-- Shape discipline for a linear layer with `i` inputs and `o` outputs. -/
def Linear.WF (l : Linear α) (i o : ℕ) : Prop :=
  l.weight.length = o ∧ (∀ w ∈ l.weight, w.length = i) ∧ l.bias.length = o

instance (l : Linear α) (i o : ℕ) : Decidable (l.WF i o) := by
  unfold Linear.WF; infer_instance

/-- Unchecked application of a linear layer to one vector. -/
def Linear.run (l : Linear α) (x : List α) : List α :=
  List.zipWith (fun w b => dot w x + b) l.weight l.bias

/-- Row-wise application of a linear layer to a 2-D tensor, with torch's
shape check (`mat1 and mat2 shapes cannot be multiplied`). -/
def Linear.runT (l : Linear α) (t : Tensor2 α) : Except TErr (Tensor2 α) :=
  if l.weight.all (fun w => w.length = t.width) then
    .ok ⟨l.outF, t.rows.map l.run⟩
  else .error .linShape

/-- `torch.cat(_, dim=1)` of two batches: checks the batch sizes agree. -/
def cat1 (a b : Tensor2 α) : Except TErr (Tensor2 α) :=
  if a.rows.length = b.rows.length then
    .ok ⟨a.width + b.width, List.zipWith (· ++ ·) a.rows b.rows⟩
  else .error .catDim0

/-- `n` consecutive chunks of `f` entries of a row: one row of a
`view(batch, n, f)` reshape. -/
def chunksN : ℕ → ℕ → List α → List (List α)
  | 0, _, _ => []
  | n + 1, f, r => r.take f :: chunksN n f (r.drop f)

/-- `view(batch, n, f)` on a 2-D tensor: succeeds iff the element count
matches, as in torch. -/
def view3 (b n f : ℕ) (t : Tensor2 α) : Except TErr (List (List (List α))) :=
  if t.numel = b * n * f then .ok (t.rows.map (chunksN n f)) else .error .viewShape

/-- The `AssetEncoder` module state (`portfolio_models.py`, lines 51–62):
`fc1 : Linear(features_per_asset, 32)`, `fc2 : Linear(32, output_size)`.
`features_per_asset` is the mutable runtime attribute the shape-mismatch
fallback would overwrite. -/
structure AssetEncoder (α : Type) where
  features_per_asset : ℕ
  encoding_size : ℕ
  output_size : ℕ
  fc1 : Linear α
  fc2 : Linear α
  first_forward_done : Bool
deriving DecidableEq

/-- The constructor-established shape discipline of an `AssetEncoder`:
`fc1` maps `features_per_asset → 32` and `fc2` maps `32 → output_size`. -/
def AssetEncoder.WF (enc : AssetEncoder α) : Prop :=
  enc.fc1.WF enc.features_per_asset 32 ∧ enc.fc2.WF 32 enc.output_size

instance (enc : AssetEncoder α) : Decidable enc.WF := by
  unfold AssetEncoder.WF; infer_instance

/-- The two-layer per-asset transform of `AssetEncoder.forward`
(lines 99–100): `relu (fc2 (relu (fc1 chunk)))`. -/
def AssetEncoder.encodeChunk (enc : AssetEncoder α) (c : List α) : List α :=
  (enc.fc2.run ((enc.fc1.run c).map relu)).map relu

/-- `AssetEncoder.forward(state, num_assets)` (lines 70–104), as explicit
state passing: returns the output batch next to the updated module.  The
`try/except RuntimeError` around the per-asset `view` (lines 89–97) is the
element-count test: the `else` branch is the `except` body, which overwrites
`self.features_per_asset` with `total_elements // (batch_size * num_assets)`,
truncates the asset block and retries the `view` (that second `view` is
unprotected in the source, so its failure propagates, as does a Python
`ZeroDivisionError` when `batch_size * num_assets = 0`). -/
def AssetEncoder.forward (enc : AssetEncoder α) (state : Tensor2 α)
    (num_assets : ℕ) : Except TErr (Tensor2 α × AssetEncoder α) := do
  let batch_size := state.rows.length
  let asset_features_total := num_assets * enc.features_per_asset
  let enc1 : AssetEncoder α := { enc with first_forward_done := true }
  -- lines 80–84: right-pad with zeros when the observation is too narrow
  let state1 : Tensor2 α :=
    if state.width < asset_features_total then
      ⟨asset_features_total,
        state.rows.map
          (fun r => r ++ List.replicate (asset_features_total - state.width) 0)⟩
    else state
  -- lines 86–87: split into asset block and (optional) extra-feature tail
  let asset_features : Tensor2 α :=
    ⟨min asset_features_total state1.width,
      state1.rows.map (fun r => r.take asset_features_total)⟩
  let extra_features : Option (Tensor2 α) :=
    if asset_features_total < state1.width then
      some ⟨state1.width - asset_features_total,
        state1.rows.map (fun r => r.drop asset_features_total)⟩
    else none
  -- lines 89–97: try the per-asset reshape, fall back on failure
  let (fpa, enc2, block) ←
    if asset_features.numel = batch_size * num_assets * enc1.features_per_asset then
      pure (enc1.features_per_asset, enc1, asset_features)
    else
      if batch_size * num_assets = 0 then .error .divZero
      else
        let safe := asset_features.numel / (batch_size * num_assets)
        pure (safe, { enc1 with features_per_asset := safe },
          (⟨min (batch_size * num_assets * safe) asset_features.width,
            asset_features.rows.map
              (fun r => r.take (batch_size * num_assets * safe))⟩ : Tensor2 α))
  let assets ← view3 batch_size num_assets fpa block
  -- lines 99–100: fc1 → relu → fc2 → relu, per asset chunk
  if enc2.fc1.weight.all (fun w => w.length = fpa) then
    if enc2.fc2.weight.all (fun w => w.length = enc2.fc1.outF) then
      let encoded := assets.map (fun cs => cs.map enc2.encodeChunk)
      -- line 101: view back to (batch, num_assets * output_size)
      if ((encoded.map (fun cs => (cs.map List.length).sum)).sum
            = batch_size * (num_assets * enc2.output_size)) then
        let asset_encodings : Tensor2 α :=
          ⟨num_assets * enc2.output_size, encoded.map List.flatten⟩
        -- lines 102–104: reattach the extra-feature tail, if any
        match extra_features with
        | some ex => do
            let out ← cat1 asset_encodings ex
            pure (out, enc2)
        | none => pure (asset_encodings, enc2)
      else .error .viewShape
    else .error .linShape
  else .error .linShape

/-- What `AssetEncoder.forward` computes on one (rectangular) row: pad the
row with zeros up to the asset block width, chunk it per asset, encode each
chunk, flatten, and reattach the tail beyond the asset block. -/
def AssetEncoder.encRow (enc : AssetEncoder α) (num_assets : ℕ) (r : List α) :
    List α :=
  ((chunksN num_assets enc.features_per_asset
      ((r ++ List.replicate (num_assets * enc.features_per_asset - r.length) 0).take
        (num_assets * enc.features_per_asset))).map enc.encodeChunk).flatten
  ++ r.drop (num_assets * enc.features_per_asset)

/-- `F.softmax(scores, dim=1)` on one row of scores, with the exponential
passed as a parameter `e` (instantiated with `Real.exp`). -/
def softmax (e : α → α) (l : List α) : List α :=
  l.map (fun x => e x / (l.map e).sum)

/-- The per-asset attention scores of `apply_attention` (line 198):
`self.attention(assets).squeeze(-1)` — the score projection outputs one
scalar per asset chunk. -/
def attnScores (attnL : Linear α) (cs : List (List α)) : List α :=
  cs.map (fun c => (attnL.run c).headD 0)

/-- The cross-asset context vector of `apply_attention` (lines 198–201) for
one batch element: softmax the scores over the asset axis, project each
chunk through the value layer, and take the attention-weighted sum. -/
def attnContext (e : α → α) (attnL valL : Linear α) (cs : List (List α)) :
    List α :=
  let w := softmax e (attnScores attnL cs)
  let vs := cs.map valL.run
  (List.range valL.outF).map (fun j =>
    ((w.zip vs).map (fun p => p.1 * (p.2.getD j 0))).sum)

/-- `initialize_attention_layers` (lines 157–166): fresh score and value
projections at width `eff`, weights uniform in `±1/sqrt(eff)` (modelled as
`lim * rng k` with raw samples `rng`), biases zero.  The accompanying
`self.effective_encoding_size = eff` assignment is performed at the call
sites of this helper. -/
def init_attention_layers (sqrtF : α → α) (rng : ℕ → α) (eff : ℕ) :
    Linear α × Linear α :=
  let lim := 1 / sqrtF (eff : α)
  (⟨[(List.range eff).map (fun j => lim * rng j)], [0]⟩,
   ⟨(List.range eff).map (fun i =>
       (List.range eff).map (fun j => lim * rng (eff + i * eff + j))),
     List.replicate eff 0⟩)

/-- An `nn.LayerNorm` module (elementwise affine, `eps = 1e-5`). -/
structure LayerNorm (α : Type) where
  gamma : List α
  beta : List α
deriving DecidableEq

/-- `nn.LayerNorm` applied to one row: normalise by the row's mean and
(biased) variance, then scale and shift. -/
def LayerNorm.run (sqrtF : α → α) (ln : LayerNorm α) (x : List α) : List α :=
  let n : α := (x.length : ℕ)
  let mu := x.sum / n
  let v := (x.map (fun t => (t - mu) ^ 2)).sum / n
  (x.zip (ln.gamma.zip ln.beta)).map
    (fun p => p.2.1 * ((p.1 - mu) / sqrtF (v + 1 / 100000)) + p.2.2)

/-- Row-wise `nn.LayerNorm` with torch's last-dimension shape check. -/
def LayerNorm.runT (sqrtF : α → α) (ln : LayerNorm α) (t : Tensor2 α) :
    Except TErr (Tensor2 α) :=
  if ln.gamma.length = t.width ∧ ln.beta.length = t.width then
    .ok ⟨t.width, t.rows.map (ln.run sqrtF)⟩
  else .error .linShape

/-- The actor's lazily built trunk: `fc1, ln1, fc2, ln2, fc3`
(`portfolio_models.py`, lines 136–144). -/
structure Trunk (α : Type) where
  fc1 : Linear α
  ln1 : LayerNorm α
  fc2 : Linear α
  ln2 : LayerNorm α
  fc3 : Linear α
deriving DecidableEq

/-- `initialize_layers(encoded_size)` together with `reset_parameters`
(lines 136–155): a completely fresh trunk — hidden layers drawn uniformly
in `±1/sqrt(fan_in)` (modelled as `lim * rng k`), output layer in `±3e-4`,
all biases zero, layer norms at their default `γ = 1`, `β = 0`. -/
def init_layers (sqrtF : α → α) (rng : ℕ → α)
    (encoded_size fc1_units fc2_units action_size : ℕ) : Trunk α :=
  let lim1 := 1 / sqrtF (encoded_size : α)
  let lim2 := 1 / sqrtF (fc1_units : α)
  let o1 := fc1_units * encoded_size
  let o2 := o1 + fc2_units * fc1_units
  { fc1 := ⟨(List.range fc1_units).map (fun i =>
        (List.range encoded_size).map (fun j => lim1 * rng (i * encoded_size + j))),
      List.replicate fc1_units 0⟩
    ln1 := ⟨List.replicate fc1_units 1, List.replicate fc1_units 0⟩
    fc2 := ⟨(List.range fc2_units).map (fun i =>
        (List.range fc1_units).map (fun j => lim2 * rng (o1 + i * fc1_units + j))),
      List.replicate fc2_units 0⟩
    ln2 := ⟨List.replicate fc2_units 1, List.replicate fc2_units 0⟩
    fc3 := ⟨(List.range action_size).map (fun i =>
        (List.range fc2_units).map (fun j => (3 / 10000 : α) * rng (o2 + i * fc2_units + j))),
      List.replicate action_size 0⟩ }

/-- A placeholder trunk used only to type the branch of `forward` in which
the source dereferences `self.fc1` after having checked it exists; it is
never observable. -/
def dummyTrunk : Trunk α := ⟨⟨[], []⟩, ⟨[], []⟩, ⟨[], []⟩, ⟨[], []⟩, ⟨[], []⟩⟩

/-- The `EnhancedPortfolioActor` module state (lines 106–134).
`extra_features` is the Python integer `state_size - features_per_asset *
action_size` (may be negative); the lazily created sublayers are `Option`s,
absent until first built. -/
structure EnhancedPortfolioActor (α : Type) where
  action_size : ℕ
  features_per_asset : ℕ
  use_attention : Bool
  asset_encoder : AssetEncoder α
  extra_features : ℤ
  attention : Option (Linear α)
  value : Option (Linear α)
  trunk : Option (Trunk α)
  fc1_units : ℕ
  fc2_units : ℕ
  layers_initialized : Bool
  effective_encoding_size : Option ℕ

/-- Shape discipline of a trunk built for input width `inW` with hidden
widths `f1`, `f2` and output width `o` (what `initialize_layers`
establishes). -/
def Trunk.WF (t : Trunk α) (inW f1 f2 o : ℕ) : Prop :=
  t.fc1.WF inW f1 ∧ t.ln1.gamma.length = f1 ∧ t.ln1.beta.length = f1
  ∧ t.fc2.WF f1 f2 ∧ t.ln2.gamma.length = f2 ∧ t.ln2.beta.length = f2
  ∧ t.fc3.WF f2 o

/-- The input width the current trunk was built for
(`self.fc1.weight.shape[1]`), when a trunk exists. -/
def EnhancedPortfolioActor.trunkInF (a : EnhancedPortfolioActor α) : Option ℕ :=
  a.trunk.map (fun t => t.fc1.inF)

/-- The `effective_encoding_size` computation of `apply_attention`
(lines 176–179): `total // action` when divisible, else the ceiling
`(total + action - 1) // action`. -/
def effSize (a T : ℕ) : ℕ :=
  if T % a = 0 then T / a else (T + a - 1) / a

/-- `apply_attention` from line 176 on, applied to the already stripped
asset block and the optional extra-feature tail: divisibility padding,
lazy (re)build of the score/value projections, the guarded
`(batch, action_size, effective_encoding_size)` view with its fallback,
attention fusion, and tail reattachment.  The `try/except RuntimeError`
around the view (lines 189–196) is the element-count test; its `else`
branch is the `except` body, which recomputes a safe width, rebuilds the
two projections there and retries the view (a second failure, or a
division by zero, propagates). -/
def EnhancedPortfolioActor.apply_attention_core (e : α → α) (sqrtF : α → α)
    (rng : ℕ → α) (actor : EnhancedPortfolioActor α) (stripped : Tensor2 α)
    (extra : Option (Tensor2 α)) (batch_size : ℕ) :
    Except TErr (Tensor2 α × EnhancedPortfolioActor α) := do
  -- lines 176–184: effective width and divisibility padding
  if actor.action_size = 0 then .error .divZero
  else
    let effective_encoding_size := effSize actor.action_size stripped.width
    let padded : Tensor2 α :=
      if stripped.width % actor.action_size = 0 then stripped
      else
        let padding_needed :=
          effective_encoding_size * actor.action_size - stripped.width
        if 0 < padding_needed then
          ⟨stripped.width + padding_needed,
            stripped.rows.map (fun r => r ++ List.replicate padding_needed 0)⟩
        else stripped
    -- lines 186–187: (re)build the projections on width change
    let (attnL, valL, actor2) :=
      if actor.attention.isNone ∨ actor.value.isNone
          ∨ actor.effective_encoding_size ≠ some effective_encoding_size then
        let fresh := init_attention_layers sqrtF rng effective_encoding_size
        (fresh.1, fresh.2,
          { actor with
            attention := some fresh.1,
            value := some fresh.2,
            effective_encoding_size := some effective_encoding_size })
      else
        (actor.attention.getD ⟨[], []⟩, actor.value.getD ⟨[], []⟩, actor)
    -- lines 189–196: try the view, fall back on failure
    let q ←
      if padded.numel = batch_size * actor.action_size * effective_encoding_size then
        pure (effective_encoding_size, attnL, valL,
          padded.rows.map (chunksN actor.action_size effective_encoding_size),
          actor2)
      else
        if batch_size * actor.action_size = 0 then .error .divZero
        else
          let safe := padded.numel / (batch_size * actor.action_size)
          let fresh := init_attention_layers sqrtF rng safe
          let actor4 := { actor2 with
            attention := some fresh.1,
            value := some fresh.2,
            effective_encoding_size := some safe }
          if padded.numel = batch_size * actor.action_size * safe then
            pure (safe, fresh.1, fresh.2,
              padded.rows.map (chunksN actor.action_size safe), actor4)
          else .error .viewShape
    let (effF, attnL2, valL2, assets3, actor3) := q
    -- lines 198–207: scores, softmax, context, fuse, flatten, reattach tail
    if attnL2.weight.all (fun w => w.length = effF) then
      if valL2.weight.all (fun w => w.length = effF) then
        let enhanced := assets3.map (fun cs =>
          (cs.map (fun c => c ++ attnContext e attnL2 valL2 cs)).flatten)
        let flattened : Tensor2 α :=
          ⟨(effF + valL2.outF) * actor.action_size, enhanced⟩
        match extra with
        | some ex => do
            let out ← cat1 flattened ex
            pure (out, actor3)
        | none => pure (flattened, actor3)
      else .error .linShape
    else .error .linShape

/-- `EnhancedPortfolioActor.apply_attention(encoded_assets, batch_size)`
(lines 168–208), as explicit state passing: strip the extra-feature tail
(lines 170–174) and hand the asset block to `apply_attention_core`. -/
def EnhancedPortfolioActor.apply_attention (e : α → α) (sqrtF : α → α)
    (rng : ℕ → α) (actor : EnhancedPortfolioActor α) (encoded0 : Tensor2 α)
    (batch_size : ℕ) : Except TErr (Tensor2 α × EnhancedPortfolioActor α) :=
  let total0 := encoded0.width
  let p :=
    if 0 < actor.extra_features
        ∧ actor.action_size * actor.features_per_asset < total0 then
      let k := actor.extra_features.toNat
      ((⟨total0 - k, encoded0.rows.map (fun r => r.take (total0 - k))⟩ : Tensor2 α),
        some (⟨total0 - (total0 - k),
          encoded0.rows.map (fun r => r.drop (total0 - k))⟩ : Tensor2 α))
    else (encoded0, none)
  actor.apply_attention_core e sqrtF rng p.1 p.2 batch_size

/-- Lines 211–214 of `EnhancedPortfolioActor.forward`: the asset encoder
followed by the optional attention aggregation — the computation of the
"encoded width" the trunk is then sized against. -/
def EnhancedPortfolioActor.encodeStage (e : α → α) (sqrtF : α → α)
    (rng : ℕ → α) (actor : EnhancedPortfolioActor α) (state : Tensor2 α) :
    Except TErr (Tensor2 α × EnhancedPortfolioActor α) := do
  let p ← actor.asset_encoder.forward state actor.action_size
  let actor1 := { actor with asset_encoder := p.2 }
  if actor.use_attention then
    actor1.apply_attention e sqrtF rng p.1 state.rows.length
  else pure (p.1, actor1)

/-- `EnhancedPortfolioActor.forward(state)` (lines 210–219): encode, then
rebuild the trunk when none exists or its input width differs from the
encoded width (line 215), then `fc1 → ln1 → relu → fc2 → ln2 → relu → fc3`. -/
def EnhancedPortfolioActor.forward (e : α → α) (sqrtF : α → α) (rng : ℕ → α)
    (actor : EnhancedPortfolioActor α) (state : Tensor2 α) :
    Except TErr (Tensor2 α × EnhancedPortfolioActor α) := do
  let q ← actor.encodeStage e sqrtF rng state
  let encoded := q.1
  let a1 := q.2
  let (t, a2) :=
    if a1.layers_initialized = false ∨ a1.trunkInF ≠ some encoded.width then
      let t := init_layers sqrtF rng encoded.width a1.fc1_units a1.fc2_units
        a1.action_size
      (t, { a1 with trunk := some t, layers_initialized := true })
    else (a1.trunk.getD dummyTrunk, a1)
  let x0 ← t.fc1.runT encoded
  let x1 ← t.ln1.runT sqrtF x0
  let x1r : Tensor2 α := ⟨x1.width, x1.rows.map (List.map relu)⟩
  let x2 ← t.fc2.runT x1r
  let x3 ← t.ln2.runT sqrtF x2
  let x3r : Tensor2 α := ⟨x3.width, x3.rows.map (List.map relu)⟩
  let out ← t.fc3.runT x3r
  pure (out, a2)

/-- An `nn.BatchNorm1d` module: affine parameters and running statistics. -/
structure BatchNorm1d (α : Type) where
  gamma : List α
  beta : List α
  running_mean : List α
  running_var : List α

/-- `nn.BatchNorm1d` on a batch: in training mode normalise by per-column
batch statistics (biased variance) and update the running statistics with
momentum `0.1` (unbiased variance), raising when the batch has `≤ 1` rows;
in eval mode normalise by the stored running statistics.  `eps = 1e-5`. -/
def BatchNorm1d.runT (bn : BatchNorm1d α) (training : Bool) (sqrtF : α → α)
    (t : Tensor2 α) : Except TErr (Tensor2 α × BatchNorm1d α) :=
  if bn.gamma.length = t.width then
    if training then
      if t.rows.length ≤ 1 then .error .bnBatch
      else
        let nB : α := (t.rows.length : ℕ)
        let mean := (List.range t.width).map
          (fun j => (t.rows.map (fun r => r.getD j 0)).sum / nB)
        let var := (List.range t.width).map (fun j =>
          (t.rows.map (fun r => (r.getD j 0 - mean.getD j 0) ^ 2)).sum / nB)
        let varU := (List.range t.width).map (fun j =>
          (t.rows.map (fun r => (r.getD j 0 - mean.getD j 0) ^ 2)).sum / (nB - 1))
        .ok (⟨t.width, t.rows.map (fun r => (List.range t.width).map (fun j =>
            bn.gamma.getD j 0 * ((r.getD j 0 - mean.getD j 0)
              / sqrtF (var.getD j 0 + 1 / 100000)) + bn.beta.getD j 0))⟩,
          { bn with
            running_mean := (List.range t.width).map (fun j =>
              (9 / 10 : α) * bn.running_mean.getD j 0 + (1 / 10 : α) * mean.getD j 0),
            running_var := (List.range t.width).map (fun j =>
              (9 / 10 : α) * bn.running_var.getD j 0 + (1 / 10 : α) * varU.getD j 0) })
    else
      .ok (⟨t.width, t.rows.map (fun r => (List.range t.width).map (fun j =>
          bn.gamma.getD j 0 * ((r.getD j 0 - bn.running_mean.getD j 0)
            / sqrtF (bn.running_var.getD j 0 + 1 / 100000)) + bn.beta.getD j 0))⟩,
        bn)
  else .error .linShape

/-- The `PortfolioCritic` module state (lines 11–27): fixed topology
`fcs1 → fc2 → fc3 → fc4` with optional batch normalisation. -/
structure PortfolioCritic (α : Type) where
  use_batch_norm : Bool
  fcs1 : Linear α
  fc2 : Linear α
  fc3 : Linear α
  fc4 : Linear α
  bn1 : BatchNorm1d α
  bn2 : BatchNorm1d α
  bn3 : BatchNorm1d α

/-- `PortfolioCritic.forward(state, action)` (lines 39–49): concatenate
state and action along dimension 1 — which raises when the batch sizes
disagree — then three hidden layers (with optional batch norm) under ReLU
and the scalar output layer. -/
def PortfolioCritic.forward (training : Bool) (sqrtF : α → α)
    (c : PortfolioCritic α) (state action : Tensor2 α) :
    Except TErr (Tensor2 α × PortfolioCritic α) := do
  let x ← cat1 state action
  let y1 ← c.fcs1.runT x
  if c.use_batch_norm then
    let p1 ← c.bn1.runT training sqrtF y1
    let r1 : Tensor2 α := ⟨p1.1.width, p1.1.rows.map (List.map relu)⟩
    let y2 ← c.fc2.runT r1
    let p2 ← c.bn2.runT training sqrtF y2
    let r2 : Tensor2 α := ⟨p2.1.width, p2.1.rows.map (List.map relu)⟩
    let y3 ← c.fc3.runT r2
    let p3 ← c.bn3.runT training sqrtF y3
    let r3 : Tensor2 α := ⟨p3.1.width, p3.1.rows.map (List.map relu)⟩
    let out ← c.fc4.runT r3
    pure (out, { c with bn1 := p1.2, bn2 := p2.2, bn3 := p3.2 })
  else
    let r1 : Tensor2 α := ⟨y1.width, y1.rows.map (List.map relu)⟩
    let y2 ← c.fc2.runT r1
    let r2 : Tensor2 α := ⟨y2.width, y2.rows.map (List.map relu)⟩
    let y3 ← c.fc3.runT r2
    let r3 : Tensor2 α := ⟨y3.width, y3.rows.map (List.map relu)⟩
    let out ← c.fc4.runT r3
    pure (out, c)

/-- Right-pad every row of a batch with zeros to width `w` (the explicit
padding the encoder's internal padding is compared against). -/
def padTo (w : ℕ) (t : Tensor2 α) : Tensor2 α :=
  ⟨w, t.rows.map (fun r => r ++ List.replicate (w - t.width) 0)⟩

/-- The invariant `initialize_attention_layers` maintains: whenever an
effective encoding size is recorded, the score and value projections exist
and are sized for it (`eff → 1` and `eff → eff`). -/
def EnhancedPortfolioActor.AttnWF (actor : EnhancedPortfolioActor α) : Prop :=
  ∀ m, actor.effective_encoding_size = some m →
    (∃ aL, actor.attention = some aL ∧ aL.WF m 1)
    ∧ (∃ vL, actor.value = some vL ∧ vL.WF m m)

/-- The line-186 rebuild rule of `apply_attention`: the actor state after a
call on an asset block of width `T` — projections freshly rebuilt at
`effSize action_size T` exactly when one is missing or the recorded width
differs, otherwise untouched. -/
def attnResultActor (sqrtF : α → α) (rng : ℕ → α)
    (actor : EnhancedPortfolioActor α) (T : ℕ) : EnhancedPortfolioActor α :=
  if actor.attention.isNone ∨ actor.value.isNone
      ∨ actor.effective_encoding_size ≠ some (effSize actor.action_size T) then
    let fresh := init_attention_layers sqrtF rng (effSize actor.action_size T)
    { actor with
      attention := some fresh.1,
      value := some fresh.2,
      effective_encoding_size := some (effSize actor.action_size T) }
  else actor

/-! Concrete module instances and batches used to exercise the theorems on
explicit inputs. -/

/-- An `AssetEncoder(features_per_asset=4, output_size=2)` with zero
weights, over `ℚ`. -/
def encQ : AssetEncoder ℚ :=
  { features_per_asset := 4
    encoding_size := 2
    output_size := 2
    fc1 := ⟨List.replicate 32 (List.replicate 4 0), List.replicate 32 0⟩
    fc2 := ⟨List.replicate 2 (List.replicate 32 0), List.replicate 2 0⟩
    first_forward_done := false }

/-- A single observation of width 10 (two short of the `3 * 4 = 12` the
asset block of three 4-feature assets needs). -/
def obsQ10 : Tensor2 ℚ := ⟨10, [[1, 2, 3, 4, 5, 6, 7, 8, 9, 10]]⟩

/-- A zero-initialised batch-norm state of width 1. -/
def bnQ : BatchNorm1d ℚ := ⟨[1], [0], [0], [1]⟩

/-- A tiny critic over `ℚ` (`state_size = action_size = 1`). -/
def criticQ : PortfolioCritic ℚ :=
  { use_batch_norm := true
    fcs1 := ⟨[[0, 0]], [0]⟩
    fc2 := ⟨[[0]], [0]⟩
    fc3 := ⟨[[0]], [0]⟩
    fc4 := ⟨[[0]], [0]⟩
    bn1 := bnQ
    bn2 := bnQ
    bn3 := bnQ }

/-- A one-row state batch of width 1. -/
def stQ1 : Tensor2 ℚ := ⟨1, [[1]]⟩

/-- An action batch with zero rows (batch size 0, mismatching `stQ1`). -/
def acQ0 : Tensor2 ℚ := ⟨1, []⟩

/-- A score projection `Linear(2, 1)` over `ℝ`. -/
def attnR2 : Linear ℝ := ⟨[[1, 2]], [0]⟩

/-- A value projection `Linear(2, 2)` over `ℝ`. -/
def valR2 : Linear ℝ := ⟨[[1, 0], [0, 1]], [0, 0]⟩

/-- An `AssetEncoder(features_per_asset=4, output_size=4)` with zero
weights, over `ℝ`. -/
def encR : AssetEncoder ℝ :=
  { features_per_asset := 4
    encoding_size := 4
    output_size := 4
    fc1 := ⟨List.replicate 32 (List.replicate 4 0), List.replicate 32 0⟩
    fc2 := ⟨List.replicate 4 (List.replicate 32 0), List.replicate 4 0⟩
    first_forward_done := false }

/-- A freshly constructed actor over `ℝ`: `state_size = 14`,
`action_size = 3`, `features_per_asset = 4` (so `extra_features = 2`),
attention in use, no sublayer built yet. -/
def actorR : EnhancedPortfolioActor ℝ :=
  { action_size := 3
    features_per_asset := 4
    use_attention := true
    asset_encoder := encR
    extra_features := 2
    attention := none
    value := none
    trunk := none
    fc1_units := 2
    fc2_units := 2
    layers_initialized := false
    effective_encoding_size := none }

/-- A single observation of width 14: asset block `1..12`, tail `[13, 14]`. -/
def obsR14 : Tensor2 ℝ :=
  ⟨14, [[1, 2, 3, 4, 5, 6, 7, 8, 9, 10, 11, 12, 13, 14]]⟩

theorem chunksN_length (n f : ℕ) (r : List α) : (chunksN n f r).length = n := by
  induction n generalizing r with
  | zero => rfl
  | succ n ih => simp [chunksN, ih]

theorem Linear.run_length (l : Linear α) (x : List α) :
    (l.run x).length = min l.weight.length l.bias.length := by
  simp [Linear.run]

theorem AssetEncoder.encodeChunk_length (enc : AssetEncoder α) (hE : enc.WF)
    (c : List α) : (enc.encodeChunk c).length = enc.output_size := by
  obtain ⟨-, ⟨h1, -, h2⟩⟩ := hE
  simp [AssetEncoder.encodeChunk, Linear.run_length, h1, h2]

theorem sum_map_fixed {β : Type} (f : β → ℕ) (c : ℕ) :
    ∀ (l : List β), (∀ x ∈ l, f x = c) → (l.map f).sum = l.length * c := by
  intro l
  induction l with
  | nil => simp
  | cons a l ih =>
      intro h
      simp only [List.map_cons, List.sum_cons, List.length_cons,
        h a (by simp)]
      rw [ih (fun x hx => h x (by simp [hx]))]
      ring

theorem AssetEncoder.encodeChunk_ffd (enc : AssetEncoder α) (b : Bool) :
    AssetEncoder.encodeChunk { enc with first_forward_done := b }
      = enc.encodeChunk := rfl

theorem okBind {ε β γ : Type} (a : β) (f : β → Except ε γ) :
    ((Except.ok a : Except ε β) >>= f) = f a := rfl

theorem errBind {ε β γ : Type} (e : ε) (f : β → Except ε γ) :
    ((Except.error e : Except ε β) >>= f) = Except.error e := rfl

theorem pureExcept {ε β : Type} (a : β) : (pure a : Except ε β) = Except.ok a := rfl

theorem zipWith_append_of_maps {β : Type} (f g : β → List α) (l : List β) :
    List.zipWith (· ++ ·) (l.map f) (l.map g) = l.map (fun x => f x ++ g x) := by
  induction l with
  | nil => rfl
  | cons a l ih => simp [ih]

/-- Full characterisation of `AssetEncoder.forward` on rectangular input with
a well-formed encoder: it always succeeds, the output is the row-wise
`encRow` with width `num_assets * output_size` plus the tail width
(`state.width - num_assets * features_per_asset`, zero when the observation
is not longer than the asset block), and the only state change is the
`first_forward_done` flag — `features_per_asset` is untouched and the
`except` fallback is never taken. -/
theorem AssetEncoder.forward_spec (enc : AssetEncoder α) (state : Tensor2 α)
    (num_assets : ℕ) (hE : enc.WF) (hS : state.WF) :
    enc.forward state num_assets =
      .ok (⟨num_assets * enc.output_size
              + (state.width - num_assets * enc.features_per_asset),
            state.rows.map (enc.encRow num_assets)⟩,
           { enc with first_forward_done := true }) := by
  have h11 := hE.1.1
  have h12 := hE.1.2.1
  have h21 := hE.2.1
  have h22 := hE.2.2.1
  have hball1 : (enc.fc1.weight.all
      fun w => decide (w.length = enc.features_per_asset)) = true := by
    simp only [List.all_eq_true, decide_eq_true_eq]; exact h12
  have hball2 : (enc.fc2.weight.all
      fun w => decide (w.length = enc.fc1.outF)) = true := by
    simp only [List.all_eq_true, decide_eq_true_eq, Linear.outF, h11]; exact h22
  have hrowsum : ∀ r : List α,
      (List.map List.length
        (List.map enc.encodeChunk (chunksN num_assets enc.features_per_asset r))).sum
        = num_assets * enc.output_size := by
    intro r
    rw [sum_map_fixed List.length enc.output_size _ ?_]
    · rw [List.length_map, chunksN_length]
    · intro x hx
      simp only [List.mem_map] at hx
      obtain ⟨c, hc, rfl⟩ := hx
      exact enc.encodeChunk_length hE c
  have hencsum : ∀ rs : List (List α),
      (List.map (fun cs => (List.map List.length cs).sum)
        (List.map (fun cs => List.map enc.encodeChunk cs)
          (List.map (chunksN num_assets enc.features_per_asset) rs))).sum
        = rs.length * (num_assets * enc.output_size) := by
    intro rs
    rw [sum_map_fixed (fun cs => (List.map List.length cs).sum)
      (num_assets * enc.output_size) _ ?_]
    · simp
    · intro x hx
      simp only [List.mem_map] at hx
      obtain ⟨cs, ⟨r, hr, rfl⟩, rfl⟩ := hx
      exact hrowsum r
  rcases lt_or_ge state.width (num_assets * enc.features_per_asset) with hpad | hge
  · have htake : ∀ r ∈ state.rows,
        ((r ++ List.replicate (num_assets * enc.features_per_asset - state.width) 0).take
            (num_assets * enc.features_per_asset)).length
          = num_assets * enc.features_per_asset := by
      intro r hr
      simp only [List.length_take, List.length_append, List.length_replicate, hS r hr]
      omega
    have hnum : (Tensor2.mk (num_assets * enc.features_per_asset)
        (List.map (fun r => List.take (num_assets * enc.features_per_asset) r)
          (List.map
            (fun r => r ++ List.replicate (num_assets * enc.features_per_asset - state.width) 0)
            state.rows))).numel
        = state.rows.length * num_assets * enc.features_per_asset := by
      show (List.map List.length _).sum = _
      rw [sum_map_fixed List.length (num_assets * enc.features_per_asset) _ ?_]
      · simp [mul_assoc]
      · intro x hx
        simp only [List.mem_map] at hx
        obtain ⟨r, ⟨r0, hr0, rfl⟩, rfl⟩ := hx
        exact htake r0 hr0
    simp only [AssetEncoder.forward, hpad, if_true, if_pos, hnum, pure_bind,
      okBind, view3, hball1, hball2, AssetEncoder.encodeChunk_ffd,
      lt_self_iff_false, if_false, min_self, hencsum]
    rw [if_pos (by simp)]
    simp only [pureExcept, Except.ok.injEq, Prod.mk.injEq, Tensor2.mk.injEq,
      List.map_map, Nat.sub_eq_zero_of_le hpad.le, Nat.add_zero]
    refine ⟨⟨trivial, ?_⟩, trivial⟩
    apply List.map_congr_left
    intro r hr
    have hrl : r.length ≤ num_assets * enc.features_per_asset := by
      rw [hS r hr]; exact hpad.le
    simp only [Function.comp_apply, AssetEncoder.encRow, hS r hr,
      List.drop_eq_nil_of_le hrl, List.append_nil]
  · have hnpad : ¬ state.width < num_assets * enc.features_per_asset := not_lt.mpr hge
    have hmin : num_assets * enc.features_per_asset ⊓ state.width
        = num_assets * enc.features_per_asset := min_eq_left hge
    have htake : ∀ r ∈ state.rows,
        (List.take (num_assets * enc.features_per_asset) r).length
          = num_assets * enc.features_per_asset := by
      intro r hr
      simp only [List.length_take, hS r hr]
      omega
    have hnum : (Tensor2.mk (num_assets * enc.features_per_asset)
        (List.map (fun r => List.take (num_assets * enc.features_per_asset) r)
          state.rows)).numel
        = state.rows.length * num_assets * enc.features_per_asset := by
      show (List.map List.length _).sum = _
      rw [sum_map_fixed List.length (num_assets * enc.features_per_asset) _ ?_]
      · simp [mul_assoc]
      · intro x hx
        simp only [List.mem_map] at hx
        obtain ⟨r, hr, rfl⟩ := hx
        exact htake r hr
    rcases eq_or_lt_of_le hge with heq | hlt
    · have hno : ¬ (num_assets * enc.features_per_asset < state.width) := by omega
      simp only [AssetEncoder.forward, hnpad, if_false, hmin, if_pos, hnum,
        pure_bind, okBind, view3, hball1, hball2, AssetEncoder.encodeChunk_ffd,
        hencsum, hno]
      rw [if_pos (by simp)]
      simp only [pureExcept, Except.ok.injEq, Prod.mk.injEq, Tensor2.mk.injEq,
        List.map_map, Nat.sub_eq_zero_of_le heq.ge, Nat.add_zero]
      refine ⟨⟨trivial, ?_⟩, trivial⟩
      apply List.map_congr_left
      intro r hr
      have hrl : r.length = num_assets * enc.features_per_asset := by
        rw [hS r hr, ← heq]
      simp only [Function.comp_apply, AssetEncoder.encRow, hrl, Nat.sub_self,
        List.replicate_zero, List.append_nil, List.drop_eq_nil_of_le hrl.le]
    · simp only [AssetEncoder.forward, hnpad, if_false, hmin, if_pos, hnum,
        pure_bind, okBind, view3, hball1, hball2, AssetEncoder.encodeChunk_ffd,
        hencsum, hlt, if_true]
      rw [if_pos (by simp)]
      simp only [cat1, List.length_map, eq_self_iff_true, if_true, pureExcept,
        okBind, Except.ok.injEq, Prod.mk.injEq, Tensor2.mk.injEq, List.map_map]
      refine ⟨⟨trivial, ?_⟩, trivial⟩
      rw [zipWith_append_of_maps]
      apply List.map_congr_left
      intro r hr
      simp only [Function.comp_apply, AssetEncoder.encRow, hS r hr,
        Nat.sub_eq_zero_of_le hge, List.replicate_zero, List.append_nil]

/-- Row-level width of `encRow`: the encoded asset block contributes
`num_assets * output_size` entries and the tail contributes the part of the
row beyond the asset block. -/
theorem AssetEncoder.encRow_length (enc : AssetEncoder α) (hE : enc.WF)
    (n : ℕ) (r : List α) :
    (enc.encRow n r).length
      = n * enc.output_size + (r.length - n * enc.features_per_asset) := by
  simp only [AssetEncoder.encRow, List.length_append, List.length_drop]
  congr 1
  rw [List.length_flatten]
  rw [sum_map_fixed List.length enc.output_size _ ?_]
  · rw [List.length_map, chunksN_length]
  · intro x hx
    simp only [List.mem_map] at hx
    obtain ⟨c, hc, rfl⟩ := hx
    exact enc.encodeChunk_length hE c

/-- C1 (counterexample): the claim asserts that some (rectangular) input
batch makes the per-asset reshape fail and thereby permanently overwrites
`features_per_asset`; in fact no well-formed encoder state and rectangular
batch can change `features_per_asset` — after the zero-padding step the
asset block width is exactly `num_assets * features_per_asset`, so the
reshape always succeeds and the `except` branch is dead. -/
theorem C1_counterexample :
    ¬ ∃ (enc : AssetEncoder ℚ) (state : Tensor2 ℚ) (num_assets : ℕ),
        enc.WF ∧ state.WF ∧ ∃ p : Tensor2 ℚ × AssetEncoder ℚ,
          enc.forward state num_assets = .ok p
          ∧ p.2.features_per_asset ≠ enc.features_per_asset := by
  rintro ⟨enc, state, n, hE, hS, p, hok, hne⟩
  rw [AssetEncoder.forward_spec enc state n hE hS] at hok
  simp only [Except.ok.injEq] at hok
  subst hok
  exact hne rfl

/-- C1 (amended): the fallback recomputation at lines 93–97 is present in
the source but unreachable — for every well-formed encoder and rectangular
batch, `forward` succeeds and the returned encoder state differs from the
input state only in `first_forward_done`; in particular
`features_per_asset` is never altered by any batch, malformed or not. -/
theorem C1_fpa_never_mutated (enc : AssetEncoder ℚ) (state : Tensor2 ℚ)
    (num_assets : ℕ) (hE : enc.WF) (hS : state.WF) :
    (∃ out : Tensor2 ℚ,
      enc.forward state num_assets
        = .ok (out, { enc with first_forward_done := true }))
    ∧ ∀ p : Tensor2 ℚ × AssetEncoder ℚ,
        enc.forward state num_assets = .ok p →
          p.2.features_per_asset = enc.features_per_asset := by
  refine ⟨⟨_, AssetEncoder.forward_spec enc state num_assets hE hS⟩, ?_⟩
  intro p hp
  rw [AssetEncoder.forward_spec enc state num_assets hE hS] at hp
  simp only [Except.ok.injEq] at hp
  subst hp
  rfl

/-- Witness for C1: the spec's own "malformed" scenario — a width-10 batch
against `num_assets = 3`, `features_per_asset = 4` — leaves
`features_per_asset` untouched. -/
theorem C1_fpa_never_mutated_witness :
    (∃ out : Tensor2 ℚ,
      encQ.forward obsQ10 3 = .ok (out, { encQ with first_forward_done := true }))
    ∧ ∀ p : Tensor2 ℚ × AssetEncoder ℚ,
        encQ.forward obsQ10 3 = .ok p →
          p.2.features_per_asset = encQ.features_per_asset :=
  C1_fpa_never_mutated encQ obsQ10 3 (by decide) (by decide)

/-- C2: for every rectangular observation batch and positive `num_assets`,
`AssetEncoder.forward` returns a batch of width
`num_assets * output_size + max(0, F - num_assets * features_per_asset)`
(the `max` is the truncated subtraction on `ℕ`), and every output row
really has that width. -/
theorem C2_output_width (enc : AssetEncoder ℚ) (state : Tensor2 ℚ)
    (num_assets : ℕ) (hE : enc.WF) (hS : state.WF) (_hn : 0 < num_assets) :
    ∃ (out : Tensor2 ℚ) (encF : AssetEncoder ℚ),
      enc.forward state num_assets = .ok (out, encF)
      ∧ out.width = num_assets * enc.output_size
          + (state.width - num_assets * enc.features_per_asset)
      ∧ out.WF := by
  refine ⟨_, _, AssetEncoder.forward_spec enc state num_assets hE hS, rfl, ?_⟩
  intro r hr
  simp only [List.mem_map] at hr
  obtain ⟨r0, hr0, rfl⟩ := hr
  rw [AssetEncoder.encRow_length enc hE num_assets r0, hS r0 hr0]

/-- Witness for C2: the spec's concrete scenario — `features_per_asset =
4`, `num_assets = 3`, observation width 10 — yields width
`3 * output_size + (10 - 12) = 3 * output_size` and no tail. -/
theorem C2_output_width_witness :
    ∃ (out : Tensor2 ℚ) (encF : AssetEncoder ℚ),
      encQ.forward obsQ10 3 = .ok (out, encF)
      ∧ out.width = 3 * encQ.output_size
          + (obsQ10.width - 3 * encQ.features_per_asset)
      ∧ out.WF :=
  C2_output_width encQ obsQ10 3 (by decide) (by decide) (by decide)

/-- C3: `AssetEncoder.forward` never raises — for every well-formed
encoder, every rectangular batch of any non-negative width and every
`num_assets`, the result is `ok`, never `error`. -/
theorem C3_never_raises (enc : AssetEncoder ℚ) (state : Tensor2 ℚ)
    (num_assets : ℕ) (hE : enc.WF) (hS : state.WF) :
    ∃ p : Tensor2 ℚ × AssetEncoder ℚ,
      enc.forward state num_assets = .ok p :=
  ⟨_, AssetEncoder.forward_spec enc state num_assets hE hS⟩

/-- Witness for C3 at a concrete encoder and batch. -/
theorem C3_never_raises_witness :
    ∃ p : Tensor2 ℚ × AssetEncoder ℚ, encQ.forward obsQ10 3 = .ok p :=
  C3_never_raises encQ obsQ10 3 (by decide) (by decide)

/-- C7: when the observation is narrower than the asset block, `forward`
returns exactly what it returns on the same batch explicitly right-padded
with zeros to `num_assets * features_per_asset` — the internal zero
padding is observationally neutral. -/
theorem C7_padding_neutral (enc : AssetEncoder ℚ) (state : Tensor2 ℚ)
    (num_assets : ℕ) (hE : enc.WF) (hS : state.WF)
    (hlt : state.width < num_assets * enc.features_per_asset) :
    enc.forward state num_assets
      = enc.forward (padTo (num_assets * enc.features_per_asset) state)
          num_assets := by
  have hSp : (padTo (num_assets * enc.features_per_asset) state).WF := by
    intro r hr
    simp only [padTo, List.mem_map] at hr
    obtain ⟨r0, hr0, rfl⟩ := hr
    simp only [padTo, List.length_append, List.length_replicate, hS r0 hr0]
    omega
  rw [AssetEncoder.forward_spec enc state num_assets hE hS,
    AssetEncoder.forward_spec enc _ num_assets hE hSp]
  simp only [padTo, Except.ok.injEq, Prod.mk.injEq, Tensor2.mk.injEq,
    List.map_map]
  refine ⟨⟨by omega, ?_⟩, trivial⟩
  apply List.map_congr_left
  intro r hr
  have hrF : r.length = state.width := hS r hr
  have hd1 : List.drop (num_assets * enc.features_per_asset) r = [] :=
    List.drop_eq_nil_of_le (by omega)
  have hd2 : List.drop (num_assets * enc.features_per_asset)
      (r ++ List.replicate (num_assets * enc.features_per_asset - state.width) 0)
        = [] :=
    List.drop_eq_nil_of_le
      (by simp only [List.length_append, List.length_replicate, hrF]; omega)
  simp only [Function.comp_apply, AssetEncoder.encRow, List.length_append,
    List.length_replicate, hrF, hd1, hd2, List.append_nil]
  have h0 : num_assets * enc.features_per_asset
      - (state.width + (num_assets * enc.features_per_asset - state.width)) = 0 := by
    omega
  rw [h0]
  simp only [List.replicate_zero, List.append_nil]

/-- Witness for C7 on a concrete narrow batch. -/
theorem C7_padding_neutral_witness :
    encQ.forward obsQ10 3
      = encQ.forward (padTo (3 * encQ.features_per_asset) obsQ10) 3 :=
  C7_padding_neutral encQ obsQ10 3 (by decide) (by decide) (by decide)

/-- C9: the critic, given state and action batches with different batch
sizes, fails with the dimension-mismatch error raised by
`torch.cat(_, dim=1)` — it does not broadcast. -/
theorem C9_batch_mismatch_raises (c : PortfolioCritic ℚ) (training : Bool)
    (sqrtF : ℚ → ℚ) (state action : Tensor2 ℚ)
    (hne : state.rows.length ≠ action.rows.length) :
    PortfolioCritic.forward training sqrtF c state action
      = .error .catDim0 := by
  simp only [PortfolioCritic.forward, cat1, hne, if_false, errBind]

/-- Witness for C9: batch size 1 against batch size 0. -/
theorem C9_batch_mismatch_raises_witness :
    PortfolioCritic.forward true id criticQ stQ1 acQ0 = .error .catDim0 :=
  C9_batch_mismatch_raises criticQ true id stQ1 acQ0 (by decide)

theorem sum_map_div (l : List α) (S : α) :
    (l.map (fun x => x / S)).sum = l.sum / S := by
  induction l with
  | nil => simp
  | cons a t ih => simp [ih, add_div]

/-- C5: in `apply_attention`, for every batch element (its list of asset
chunks), the attention weights — the softmax of the per-asset scores over
the asset axis, with the real exponential — are all non-negative and sum
to 1. -/
theorem C5_attention_weights (attnL : Linear ℝ) (cs : List (List ℝ))
    (hne : cs ≠ []) :
    (∀ w ∈ softmax Real.exp (attnScores attnL cs), 0 ≤ w)
    ∧ (softmax Real.exp (attnScores attnL cs)).sum = 1 := by
  have hne2 : attnScores attnL cs ≠ [] := by
    simpa [attnScores] using hne
  have hpos : 0 < ((attnScores attnL cs).map Real.exp).sum := by
    refine List.sum_pos _ ?_ (by simpa using hne2)
    intro x hx
    simp only [List.mem_map] at hx
    obtain ⟨y, hy, rfl⟩ := hx
    exact Real.exp_pos y
  constructor
  · intro w hw
    simp only [softmax, List.mem_map] at hw
    obtain ⟨x, hx, rfl⟩ := hw
    exact div_nonneg (Real.exp_pos x).le hpos.le
  · have hmm : (attnScores attnL cs).map
        (fun x => Real.exp x / ((attnScores attnL cs).map Real.exp).sum)
        = ((attnScores attnL cs).map Real.exp).map
            (fun x => x / ((attnScores attnL cs).map Real.exp).sum) := by
      rw [List.map_map]
      rfl
    rw [softmax, hmm, sum_map_div, div_self hpos.ne']

/-- Witness for C5 with a non-empty chunk list. -/
theorem C5_attention_weights_witness :
    (∀ w ∈ softmax Real.exp (attnScores attnR2 [[1, 2], [3, 4]]), 0 ≤ w)
    ∧ (softmax Real.exp (attnScores attnR2 [[1, 2], [3, 4]])).sum = 1 :=
  C5_attention_weights attnR2 [[1, 2], [3, 4]] (by simp)

/-- The attention context is invariant under permutation of the asset
chunks: the softmax denominator is a permutation-invariant sum, and the
weighted sum pairs each chunk with its own score and value. -/
theorem attnContext_perm (e : α → α) (attnL valL : Linear α)
    (cs1 cs2 : List (List α)) (hperm : cs2.Perm cs1) :
    attnContext e attnL valL cs2 = attnContext e attnL valL cs1 := by
  have hS : ((attnScores attnL cs2).map e).sum
      = ((attnScores attnL cs1).map e).sum :=
    List.Perm.sum_eq ((hperm.map (fun c => (attnL.run c).headD 0)).map e)
  simp only [attnContext, softmax, attnScores, List.map_map] at hS ⊢
  rw [hS]
  apply List.map_congr_left
  intro j hj
  apply List.Perm.sum_eq
  refine List.Perm.map _ ?_
  rw [List.zip_map', List.zip_map']
  exact hperm.map _

/-- C8: for a tail-free input row whose width is a multiple of
`action_size`, permuting its `action_size` per-asset chunks leaves the
attention-weighted context vector of `apply_attention` unchanged. -/
theorem C8_context_perm_invariant (attnL valL : Linear ℝ)
    (action_size eff : ℕ) (r1 r2 : List ℝ)
    (_h1 : r1.length = action_size * eff) (_h2 : r2.length = action_size * eff)
    (hperm : (chunksN action_size eff r2).Perm (chunksN action_size eff r1)) :
    attnContext Real.exp attnL valL (chunksN action_size eff r2)
      = attnContext Real.exp attnL valL (chunksN action_size eff r1) :=
  attnContext_perm Real.exp attnL valL _ _ hperm

/-- Witness for C8: swapping the two chunks of a width-4 row. -/
theorem C8_context_perm_invariant_witness :
    attnContext Real.exp attnR2 valR2 (chunksN 2 2 [3, 4, 1, 2])
      = attnContext Real.exp attnR2 valR2 (chunksN 2 2 [1, 2, 3, 4]) :=
  C8_context_perm_invariant attnR2 valR2 2 2 [1, 2, 3, 4] [3, 4, 1, 2]
    rfl rfl (List.Perm.swap [1, 2] [3, 4] [])

theorem effSize_spec (a T : ℕ) (ha : 0 < a) :
    T ≤ effSize a T * a
    ∧ (T % a = 0 → effSize a T * a = T)
    ∧ (T % a ≠ 0 → T < effSize a T * a) := by
  by_cases h : T % a = 0
  · have hdvd : a ∣ T := Nat.dvd_of_mod_eq_zero h
    have he : effSize a T * a = T := by
      simp only [effSize, h, if_true]
      rw [mul_comm]
      exact Nat.mul_div_cancel' hdvd
    exact ⟨he.ge, fun _ => he, fun hc => absurd h hc⟩
  · have h1 : T + a - 1 < (T + a - 1) / a * a + a := Nat.lt_div_mul_add ha
    have h2 : effSize a T = (T + a - 1) / a := by simp [effSize, h]
    have h3 : T ≤ effSize a T * a := by rw [h2]; omega
    have h4 : T ≠ effSize a T * a := by
      intro he
      exact h (by rw [he, Nat.mul_mod_left])
    exact ⟨h3, fun hc => absurd hc h, fun _ => lt_of_le_of_ne h3 h4⟩

theorem init_attention_layers_WF (sqrtF : α → α) (rng : ℕ → α) (eff : ℕ) :
    (init_attention_layers sqrtF rng eff).1.WF eff 1
    ∧ (init_attention_layers sqrtF rng eff).2.WF eff eff := by
  constructor
  · refine ⟨rfl, ?_, rfl⟩
    intro w hw
    simp only [init_attention_layers, List.mem_singleton] at hw
    subst hw
    simp
  · refine ⟨by simp [init_attention_layers], ?_,
      by simp [init_attention_layers]⟩
    intro w hw
    simp only [init_attention_layers, List.mem_map] at hw
    obtain ⟨i, hi, rfl⟩ := hw
    simp

/-- Full characterisation of `apply_attention_core` on a rectangular asset
block under the actor's attention invariant: the divisibility padding makes
the block width exactly `action_size * effSize` so the guarded view
succeeds and the except-fallback is never entered, the projections are
rebuilt exactly by the line-186 width-mismatch rule (`attnResultActor`),
and the output rows are a per-row transform of the block rows with the
tail rows appended unchanged. -/
theorem apply_attention_core_spec (e sqrtF : α → α) (rng : ℕ → α)
    (actor : EnhancedPortfolioActor α) (stripped : Tensor2 α)
    (extra : Option (Tensor2 α)) (batch_size : ℕ)
    (ha : 0 < actor.action_size) (hWF : stripped.WF) (hA : actor.AttnWF)
    (hB : batch_size = stripped.rows.length) :
    ∃ g : List α → List α,
      actor.apply_attention_core e sqrtF rng stripped extra batch_size
        = (match extra with
           | none =>
             .ok (⟨2 * effSize actor.action_size stripped.width
                    * actor.action_size,
                stripped.rows.map g⟩,
               attnResultActor sqrtF rng actor stripped.width)
           | some ex =>
             if stripped.rows.length = ex.rows.length then
               .ok (⟨2 * effSize actor.action_size stripped.width
                      * actor.action_size + ex.width,
                 List.zipWith (· ++ ·) (stripped.rows.map g) ex.rows⟩,
                 attnResultActor sqrtF rng actor stripped.width)
             else .error .catDim0) := by
  have hane : ¬ (actor.action_size = 0) := ha.ne'
  obtain ⟨hple, hpeq, hplt⟩ := effSize_spec actor.action_size stripped.width ha
  have hpad : ∃ pr : List α → List α,
      (if stripped.width % actor.action_size = 0 then stripped
       else
         if 0 < effSize actor.action_size stripped.width * actor.action_size
              - stripped.width then
           (⟨stripped.width + (effSize actor.action_size stripped.width
                * actor.action_size - stripped.width),
             List.map (fun r => r ++ List.replicate
               (effSize actor.action_size stripped.width * actor.action_size
                 - stripped.width) 0) stripped.rows⟩ : Tensor2 α)
         else stripped)
        = (⟨effSize actor.action_size stripped.width * actor.action_size,
            stripped.rows.map pr⟩ : Tensor2 α)
      ∧ ∀ r ∈ stripped.rows,
          (pr r).length
            = effSize actor.action_size stripped.width * actor.action_size := by
    by_cases hdvd : stripped.width % actor.action_size = 0
    · refine ⟨fun r => r, ?_, ?_⟩
      · obtain ⟨w, rows⟩ := stripped
        simp only [hdvd, if_true, Tensor2.mk.injEq]
        exact ⟨(hpeq hdvd).symm, by simp⟩
      · intro r hr
        rw [hWF r hr]
        exact (hpeq hdvd).symm
    · have h01 := hplt hdvd
      refine ⟨fun r => r ++ List.replicate
        (effSize actor.action_size stripped.width * actor.action_size
          - stripped.width) 0, ?_, ?_⟩
      · rw [if_neg hdvd, if_pos (by omega)]
        simp only [Tensor2.mk.injEq]
        exact ⟨by omega, trivial⟩
      · intro r hr
        simp only [List.length_append, List.length_replicate, hWF r hr]
        omega
  obtain ⟨pr, hpadEq, hprLen⟩ := hpad
  have hlayers : ∃ aL vL : Linear α,
      (if actor.attention.isNone ∨ actor.value.isNone
          ∨ actor.effective_encoding_size
              ≠ some (effSize actor.action_size stripped.width) then
        ((init_attention_layers sqrtF rng
            (effSize actor.action_size stripped.width)).1,
         (init_attention_layers sqrtF rng
            (effSize actor.action_size stripped.width)).2,
         { actor with
           attention := some (init_attention_layers sqrtF rng
              (effSize actor.action_size stripped.width)).1,
           value := some (init_attention_layers sqrtF rng
              (effSize actor.action_size stripped.width)).2,
           effective_encoding_size
             := some (effSize actor.action_size stripped.width) })
       else (actor.attention.getD ⟨[], []⟩, actor.value.getD ⟨[], []⟩, actor))
        = (aL, vL, attnResultActor sqrtF rng actor stripped.width)
      ∧ aL.WF (effSize actor.action_size stripped.width) 1
      ∧ vL.WF (effSize actor.action_size stripped.width)
          (effSize actor.action_size stripped.width) := by
    by_cases hreb : actor.attention.isNone ∨ actor.value.isNone
        ∨ actor.effective_encoding_size
            ≠ some (effSize actor.action_size stripped.width)
    · refine ⟨_, _, ?_, (init_attention_layers_WF sqrtF rng _).1,
        (init_attention_layers_WF sqrtF rng _).2⟩
      rw [if_pos hreb]
      simp only [attnResultActor, if_pos hreb]
    · push_neg at hreb
      obtain ⟨hna, hnv, hse⟩ := hreb
      obtain ⟨⟨aL, haL, haWF⟩, ⟨vL, hvL, hvWF⟩⟩ := hA _ hse
      refine ⟨aL, vL, ?_, haWF, hvWF⟩
      have hcond : ¬ (actor.attention.isNone ∨ actor.value.isNone
          ∨ actor.effective_encoding_size
              ≠ some (effSize actor.action_size stripped.width)) := by
        push_neg
        exact ⟨hna, hnv, hse⟩
      rw [if_neg hcond]
      simp only [attnResultActor]
      rw [if_neg hcond]
      simp [haL, hvL]
  obtain ⟨aL, vL, hlayEq, haWF, hvWF⟩ := hlayers
  refine ⟨(fun cs => (cs.map
      (fun c => c ++ attnContext e aL vL cs)).flatten)
    ∘ chunksN actor.action_size (effSize actor.action_size stripped.width)
    ∘ pr, ?_⟩
  have hnum : (⟨effSize actor.action_size stripped.width * actor.action_size,
      stripped.rows.map pr⟩ : Tensor2 α).numel
      = batch_size * actor.action_size
          * effSize actor.action_size stripped.width := by
    show (List.map List.length (stripped.rows.map pr)).sum = _
    rw [sum_map_fixed List.length
      (effSize actor.action_size stripped.width * actor.action_size) _ ?_]
    · rw [List.length_map, hB]
      ring
    · intro x hx
      simp only [List.mem_map] at hx
      obtain ⟨r, hr, rfl⟩ := hx
      exact hprLen r hr
  have hballA : (aL.weight.all
      fun w => decide (w.length = effSize actor.action_size stripped.width))
        = true := by
    simp only [List.all_eq_true, decide_eq_true_eq]
    exact haWF.2.1
  have hballV : (vL.weight.all
      fun w => decide (w.length = effSize actor.action_size stripped.width))
        = true := by
    simp only [List.all_eq_true, decide_eq_true_eq]
    exact hvWF.2.1
  have houtF : vL.outF = effSize actor.action_size stripped.width := hvWF.1
  simp only [EnhancedPortfolioActor.apply_attention_core, hane, if_false,
    hpadEq, hlayEq, hnum, if_pos, pure_bind, okBind, hballA, hballV, if_true,
    houtF, List.map_map]
  cases extra with
  | none => simp [pureExcept, two_mul]
  | some ex =>
      by_cases hcx : stripped.rows.length = ex.rows.length
      · simp [cat1, List.length_map, hcx, okBind, pureExcept, two_mul]
      · simp [cat1, List.length_map, hcx, errBind, pureExcept]

/-- `apply_attention_core_spec` specialised to a call without a tail. -/
theorem apply_attention_core_spec_none (e sqrtF : α → α) (rng : ℕ → α)
    (actor : EnhancedPortfolioActor α) (stripped : Tensor2 α)
    (batch_size : ℕ) (ha : 0 < actor.action_size) (hWF : stripped.WF)
    (hA : actor.AttnWF) (hB : batch_size = stripped.rows.length) :
    ∃ g : List α → List α,
      actor.apply_attention_core e sqrtF rng stripped none batch_size
        = .ok (⟨2 * effSize actor.action_size stripped.width
                * actor.action_size,
            stripped.rows.map g⟩,
          attnResultActor sqrtF rng actor stripped.width) := by
  obtain ⟨g, h⟩ := apply_attention_core_spec e sqrtF rng actor stripped none
    batch_size ha hWF hA hB
  exact ⟨g, h⟩

/-- `apply_attention_core_spec` specialised to a call with a tail. -/
theorem apply_attention_core_spec_some (e sqrtF : α → α) (rng : ℕ → α)
    (actor : EnhancedPortfolioActor α) (stripped ex : Tensor2 α)
    (batch_size : ℕ) (ha : 0 < actor.action_size) (hWF : stripped.WF)
    (hA : actor.AttnWF) (hB : batch_size = stripped.rows.length)
    (hx : stripped.rows.length = ex.rows.length) :
    ∃ g : List α → List α,
      actor.apply_attention_core e sqrtF rng stripped (some ex) batch_size
        = .ok (⟨2 * effSize actor.action_size stripped.width
                  * actor.action_size + ex.width,
            List.zipWith (· ++ ·) (stripped.rows.map g) ex.rows⟩,
          attnResultActor sqrtF rng actor stripped.width) := by
  obtain ⟨g, h⟩ := apply_attention_core_spec e sqrtF rng actor stripped
    (some ex) batch_size ha hWF hA hB
  refine ⟨g, ?_⟩
  rw [h]
  exact if_pos hx

/-- Splitting an encoder output row at `n * output_size` recovers the
encoded asset block and the untouched tail of the input row. -/
theorem AssetEncoder.encRow_take_drop (enc : AssetEncoder α) (hE : enc.WF)
    (n : ℕ) (r : List α) :
    (enc.encRow n r).take (n * enc.output_size)
      = ((chunksN n enc.features_per_asset
          ((r ++ List.replicate (n * enc.features_per_asset - r.length) 0).take
            (n * enc.features_per_asset))).map enc.encodeChunk).flatten
    ∧ (enc.encRow n r).drop (n * enc.output_size)
      = r.drop (n * enc.features_per_asset) := by
  have hlen : (((chunksN n enc.features_per_asset
      ((r ++ List.replicate (n * enc.features_per_asset - r.length) 0).take
        (n * enc.features_per_asset))).map enc.encodeChunk).flatten).length
      = n * enc.output_size := by
    rw [List.length_flatten]
    rw [sum_map_fixed List.length enc.output_size _ ?_]
    · rw [List.length_map, chunksN_length]
    · intro x hx
      simp only [List.mem_map] at hx
      obtain ⟨c, hc, rfl⟩ := hx
      exact enc.encodeChunk_length hE c
  exact ⟨by rw [AssetEncoder.encRow, List.take_left' hlen],
    by rw [AssetEncoder.encRow, List.drop_left' hlen]⟩

/-- C10: in `apply_attention`, after the divisibility zero-padding step the
asset block width equals `action_size * effective_encoding_size` exactly
(first conjunct, for every block width `T`), so the guarded reshape never
fails: the call returns `ok` and the final projections are exactly those of
the line-186 width-mismatch rule (`attnResultActor`) — the except-branch
fallback never rebuilds them. -/
theorem C10_attention_fallback_unreachable (rng : ℕ → ℝ)
    (actor : EnhancedPortfolioActor ℝ) (encoded0 : Tensor2 ℝ)
    (batch_size : ℕ) (ha : 0 < actor.action_size) (hWF : encoded0.WF)
    (hA : actor.AttnWF) (hB : batch_size = encoded0.rows.length) :
    (∀ T : ℕ,
      (if T % actor.action_size = 0 then T
       else T + (effSize actor.action_size T * actor.action_size - T))
        = actor.action_size * effSize actor.action_size T)
    ∧ ∃ (out : Tensor2 ℝ) (W : ℕ),
        actor.apply_attention Real.exp Real.sqrt rng encoded0 batch_size
          = .ok (out, attnResultActor Real.sqrt rng actor W) := by
  constructor
  · intro T
    obtain ⟨hle, heq, hlt⟩ := effSize_spec actor.action_size T ha
    by_cases h : T % actor.action_size = 0
    · simp only [h, if_true]
      rw [mul_comm]
      exact (heq h).symm
    · simp only [h, if_false]
      have := hlt h
      rw [mul_comm actor.action_size]
      omega
  · simp only [EnhancedPortfolioActor.apply_attention]
    by_cases hcond : 0 < actor.extra_features
        ∧ actor.action_size * actor.features_per_asset < encoded0.width
    · simp only [hcond.1, hcond.2, and_self, if_true]
      obtain ⟨g, hspec⟩ := apply_attention_core_spec_some Real.exp Real.sqrt
        rng actor
        ⟨encoded0.width - actor.extra_features.toNat,
          encoded0.rows.map
            (fun r => r.take (encoded0.width - actor.extra_features.toNat))⟩
        ⟨encoded0.width - (encoded0.width - actor.extra_features.toNat),
          encoded0.rows.map
            (fun r => r.drop (encoded0.width - actor.extra_features.toNat))⟩
        batch_size ha
        (by
          intro r hr
          simp only [List.mem_map] at hr
          obtain ⟨r0, hr0, rfl⟩ := hr
          simp only [List.length_take, hWF r0 hr0]
          exact min_eq_left (Nat.sub_le _ _))
        hA
        (by rw [hB]; simp)
        (by simp)
      rw [hspec]
      exact ⟨_, _, rfl⟩
    · simp only [hcond, if_false]
      obtain ⟨g, hspec⟩ := apply_attention_core_spec_none Real.exp Real.sqrt
        rng actor encoded0 batch_size ha hWF hA hB
      rw [hspec]
      exact ⟨_, _, rfl⟩

/-- Witness for C10 at a freshly constructed actor and a width-14 batch. -/
theorem C10_attention_fallback_unreachable_witness :
    (∀ T : ℕ,
      (if T % actorR.action_size = 0 then T
       else T + (effSize actorR.action_size T * actorR.action_size - T))
        = actorR.action_size * effSize actorR.action_size T)
    ∧ ∃ (out : Tensor2 ℝ) (W : ℕ),
        actorR.apply_attention Real.exp Real.sqrt (fun _ => 0) obsR14 1
          = .ok (out, attnResultActor Real.sqrt (fun _ => 0) actorR W) :=
  C10_attention_fallback_unreachable (fun _ => 0) actorR obsR14 1
    (by decide) (by decide) (fun m h => nomatch h) (by decide)

/-- C6: with `num_assets = 3`, `features_per_asset = 4` and an observation
of width 14, the two tail values pass through the asset encoder and the
attention aggregation unchanged: the result of the encode stage is, row by
row, some transform of the asset block followed by exactly `r.drop 12` —
the tail, in order, at the end. -/
theorem C6_tail_passthrough (rng : ℕ → ℝ) (actor : EnhancedPortfolioActor ℝ)
    (st : Tensor2 ℝ) (hAs : actor.action_size = 3)
    (hFp : actor.features_per_asset = 4) (hEx : actor.extra_features = 2)
    (hUse : actor.use_attention = true) (hE : actor.asset_encoder.WF)
    (hfp4 : actor.asset_encoder.features_per_asset = 4)
    (hout : 4 ≤ actor.asset_encoder.output_size) (hA : actor.AttnWF)
    (hS : st.WF) (hW : st.width = 14) :
    ∃ (f : List ℝ → List ℝ) (w : ℕ) (actorF : EnhancedPortfolioActor ℝ),
      actor.encodeStage Real.exp Real.sqrt rng st
        = .ok (⟨w + 2, st.rows.map (fun r => f r ++ r.drop 12)⟩, actorF) := by
  have hfwd := AssetEncoder.forward_spec actor.asset_encoder st
    actor.action_size hE hS
  have h142 : (14 : ℕ) - 3 * 4 = 2 := by norm_num
  rw [hAs, hfp4, hW] at hfwd
  simp only [EnhancedPortfolioActor.encodeStage, hAs, hfwd, okBind, hUse,
    if_true, h142]
  have h02 : (0 : ℤ) < 2 := by norm_num
  have hlt12 : (3 : ℕ) * 4 < 3 * actor.asset_encoder.output_size + 2 := by
    omega
  have htn : (2 : ℤ).toNat = 2 := rfl
  simp only [EnhancedPortfolioActor.apply_attention, hEx, hFp, h02, hlt12,
    and_self, if_true, htn, Nat.add_sub_cancel, Nat.add_sub_cancel_left]
  obtain ⟨g, hspec⟩ := apply_attention_core_spec_some Real.exp Real.sqrt rng
    { actor with
      action_size := 3
      features_per_asset := 4
      use_attention := true
      extra_features := 2
      asset_encoder :=
        { features_per_asset := 4
          encoding_size := actor.asset_encoder.encoding_size
          output_size := actor.asset_encoder.output_size
          fc1 := actor.asset_encoder.fc1
          fc2 := actor.asset_encoder.fc2
          first_forward_done := true } }
    ⟨3 * actor.asset_encoder.output_size,
      (st.rows.map (actor.asset_encoder.encRow 3)).map
        (fun r => r.take (3 * actor.asset_encoder.output_size))⟩
    ⟨2, (st.rows.map (actor.asset_encoder.encRow 3)).map
        (fun r => r.drop (3 * actor.asset_encoder.output_size))⟩
    st.rows.length
    (Nat.succ_pos 2)
    (by
      intro x hx
      simp only [List.mem_map] at hx
      obtain ⟨r0, ⟨r1, hr1, rfl⟩, rfl⟩ := hx
      simp only [List.length_take]
      rw [AssetEncoder.encRow_length actor.asset_encoder hE 3 r1, hfp4,
        hS r1 hr1, hW]
      omega)
    (fun m h => hA m h)
    (by simp)
    (by simp)
  refine ⟨fun r => g ((actor.asset_encoder.encRow 3 r).take
      (3 * actor.asset_encoder.output_size)),
    2 * effSize 3 (3 * actor.asset_encoder.output_size) * 3,
    attnResultActor Real.sqrt rng
      { actor with
        action_size := 3
        features_per_asset := 4
        use_attention := true
        extra_features := 2
        asset_encoder :=
          { features_per_asset := 4
            encoding_size := actor.asset_encoder.encoding_size
            output_size := actor.asset_encoder.output_size
            fc1 := actor.asset_encoder.fc1
            fc2 := actor.asset_encoder.fc2
            first_forward_done := true } }
      (3 * actor.asset_encoder.output_size), ?_⟩
  rw [hspec]
  simp only [Except.ok.injEq, Prod.mk.injEq, Tensor2.mk.injEq, List.map_map]
  refine ⟨⟨trivial, ?_⟩, trivial⟩
  rw [zipWith_append_of_maps]
  apply List.map_congr_left
  intro r hr
  simp only [Function.comp_apply]
  congr 1
  have h := (AssetEncoder.encRow_take_drop actor.asset_encoder hE 3 r).2
  rw [hfp4] at h
  rw [show (3 * 4 : ℕ) = 12 from rfl] at h
  exact h

/-- Witness for C6: the fresh three-asset actor on the concrete width-14
observation whose tail is `[13, 14]`. -/
theorem C6_tail_passthrough_witness :
    ∃ (f : List ℝ → List ℝ) (w : ℕ) (actorF : EnhancedPortfolioActor ℝ),
      actorR.encodeStage Real.exp Real.sqrt (fun _ => 0) obsR14
        = .ok (⟨w + 2, obsR14.rows.map (fun r => f r ++ r.drop 12)⟩, actorF) :=
  C6_tail_passthrough (fun _ => 0) actorR obsR14 rfl rfl rfl rfl (by decide)
    rfl (by decide) (fun m h => nomatch h) (by decide) rfl

theorem init_layers_WF (sqrtF : α → α) (rng : ℕ → α) (w f1 f2 o : ℕ) :
    (init_layers sqrtF rng w f1 f2 o).WF w f1 f2 o := by
  refine ⟨⟨by simp [init_layers], ?_, by simp [init_layers]⟩,
    by simp [init_layers], by simp [init_layers],
    ⟨by simp [init_layers], ?_, by simp [init_layers]⟩,
    by simp [init_layers], by simp [init_layers],
    ⟨by simp [init_layers], ?_, by simp [init_layers]⟩⟩
  all_goals
    intro x hx
  all_goals
    simp only [init_layers, List.mem_map] at hx
  all_goals
    obtain ⟨i, hi, rfl⟩ := hx
  all_goals
    simp

theorem init_layers_inF (sqrtF : α → α) (rng : ℕ → α) (w f1 f2 o : ℕ)
    (hf1 : 0 < f1) : (init_layers sqrtF rng w f1 f2 o).fc1.inF = w := by
  obtain ⟨k, rfl⟩ : ∃ k, f1 = k + 1 := ⟨f1 - 1, by omega⟩
  simp [init_layers, Linear.inF, List.range_succ_eq_map]

theorem init_layers_bounds (rng : ℕ → ℝ) (w f1 f2 o : ℕ)
    (hrng : ∀ i, |rng i| ≤ 1) :
    (∀ row ∈ (init_layers Real.sqrt rng w f1 f2 o).fc1.weight,
      ∀ x ∈ row, |x| ≤ 1 / Real.sqrt w)
    ∧ (∀ b ∈ (init_layers Real.sqrt rng w f1 f2 o).fc1.bias, b = 0)
    ∧ (∀ row ∈ (init_layers Real.sqrt rng w f1 f2 o).fc2.weight,
        ∀ x ∈ row, |x| ≤ 1 / Real.sqrt f1)
    ∧ (∀ b ∈ (init_layers Real.sqrt rng w f1 f2 o).fc2.bias, b = 0)
    ∧ (∀ row ∈ (init_layers Real.sqrt rng w f1 f2 o).fc3.weight,
        ∀ x ∈ row, |x| ≤ 3 / 10000)
    ∧ (∀ b ∈ (init_layers Real.sqrt rng w f1 f2 o).fc3.bias, b = 0) := by
  have hbound : ∀ (c : ℝ) (k : ℕ), 0 ≤ c → |c * rng k| ≤ c := by
    intro c k hc
    rw [abs_mul, abs_of_nonneg hc]
    calc c * |rng k| ≤ c * 1 := by
          exact mul_le_mul_of_nonneg_left (hrng k) hc
      _ = c := mul_one c
  have hsq : ∀ m : ℕ, (0 : ℝ) ≤ 1 / Real.sqrt m :=
    fun m => by positivity
  refine ⟨?_, by simp [init_layers], ?_, by simp [init_layers], ?_,
    by simp [init_layers]⟩
  all_goals
    intro row hrow x hx
  all_goals
    simp only [init_layers, List.mem_map] at hrow
  all_goals
    obtain ⟨i, hi, rfl⟩ := hrow
  all_goals
    simp only [List.mem_map] at hx
  all_goals
    obtain ⟨j, hj, rfl⟩ := hx
  · exact hbound _ _ (hsq w)
  · exact hbound _ _ (hsq f1)
  · exact hbound _ _ (by norm_num)

/-- The trunk pipeline `fc1 → ln1 → relu → fc2 → ln2 → relu → fc3` succeeds
step by step on a well-shaped trunk, with all intermediate widths fixed by
the trunk's shape. -/
theorem trunk_stage_ok (sqrtF : α → α) (t : Trunk α) (enc : Tensor2 α)
    (f1 f2 o : ℕ) (hW : t.WF enc.width f1 f2 o) :
    ∃ x0 x1 x2 x3 out : Tensor2 α,
      t.fc1.runT enc = .ok x0
      ∧ t.ln1.runT sqrtF x0 = .ok x1
      ∧ t.fc2.runT ⟨x1.width, x1.rows.map (List.map relu)⟩ = .ok x2
      ∧ t.ln2.runT sqrtF x2 = .ok x3
      ∧ t.fc3.runT ⟨x3.width, x3.rows.map (List.map relu)⟩ = .ok out := by
  obtain ⟨⟨h11, h12, h13⟩, hg1, hb1, ⟨h21, h22, h23⟩, hg2, hb2,
    ⟨h31, h32, h33⟩⟩ := hW
  have c1 : (t.fc1.weight.all fun v => decide (v.length = enc.width))
      = true := by
    simp only [List.all_eq_true, decide_eq_true_eq]
    exact h12
  have s1 : t.fc1.runT enc = .ok ⟨t.fc1.outF, enc.rows.map t.fc1.run⟩ := by
    rw [Linear.runT, if_pos c1]
  have ho1 : t.fc1.outF = f1 := h11
  have s2 : t.ln1.runT sqrtF (⟨t.fc1.outF, enc.rows.map t.fc1.run⟩ : Tensor2 α)
      = .ok ⟨t.fc1.outF, (enc.rows.map t.fc1.run).map (t.ln1.run sqrtF)⟩ := by
    rw [LayerNorm.runT, if_pos ⟨by rw [hg1, ho1], by rw [hb1, ho1]⟩]
  have c2 : (t.fc2.weight.all fun v => decide (v.length = t.fc1.outF))
      = true := by
    simp only [List.all_eq_true, decide_eq_true_eq, ho1]
    exact h22
  have s3 : t.fc2.runT ⟨t.fc1.outF,
      ((enc.rows.map t.fc1.run).map (t.ln1.run sqrtF)).map (List.map relu)⟩
      = .ok ⟨t.fc2.outF,
        (((enc.rows.map t.fc1.run).map (t.ln1.run sqrtF)).map
          (List.map relu)).map t.fc2.run⟩ := by
    rw [Linear.runT, if_pos c2]
  have ho2 : t.fc2.outF = f2 := h21
  have s4 : t.ln2.runT sqrtF (⟨t.fc2.outF,
      (((enc.rows.map t.fc1.run).map (t.ln1.run sqrtF)).map
        (List.map relu)).map t.fc2.run⟩ : Tensor2 α)
      = .ok ⟨t.fc2.outF,
        ((((enc.rows.map t.fc1.run).map (t.ln1.run sqrtF)).map
          (List.map relu)).map t.fc2.run).map (t.ln2.run sqrtF)⟩ := by
    rw [LayerNorm.runT, if_pos ⟨by rw [hg2, ho2], by rw [hb2, ho2]⟩]
  have c3 : (t.fc3.weight.all fun v => decide (v.length = t.fc2.outF))
      = true := by
    simp only [List.all_eq_true, decide_eq_true_eq, ho2]
    exact h32
  have s5 : t.fc3.runT ⟨t.fc2.outF,
      (((((enc.rows.map t.fc1.run).map (t.ln1.run sqrtF)).map
        (List.map relu)).map t.fc2.run).map (t.ln2.run sqrtF)).map
          (List.map relu)⟩
      = .ok ⟨t.fc3.outF,
        ((((((enc.rows.map t.fc1.run).map (t.ln1.run sqrtF)).map
          (List.map relu)).map t.fc2.run).map (t.ln2.run sqrtF)).map
            (List.map relu)).map t.fc3.run⟩ := by
    rw [Linear.runT, if_pos c3]
  exact ⟨_, _, _, _, _, s1, s2, s3, s4, s5⟩

/-- The line-186 rebuild rule only touches the attention-related fields:
trunk, `layers_initialized` and the layer widths survive unchanged. -/
theorem attnResultActor_frame (sqrtF : α → α) (rng : ℕ → α)
    (A : EnhancedPortfolioActor α) (T : ℕ) :
    (attnResultActor sqrtF rng A T).trunk = A.trunk
    ∧ (attnResultActor sqrtF rng A T).layers_initialized
        = A.layers_initialized
    ∧ (attnResultActor sqrtF rng A T).fc1_units = A.fc1_units
    ∧ (attnResultActor sqrtF rng A T).fc2_units = A.fc2_units
    ∧ (attnResultActor sqrtF rng A T).action_size = A.action_size := by
  unfold attnResultActor
  split <;> simp

/-- The encode stage (asset encoder plus optional attention) always
succeeds on a rectangular batch under the constructor invariants, and it
never touches the trunk-related fields of the actor. -/
theorem encodeStage_spec (e sqrtF : α → α) (rng : ℕ → α)
    (actor : EnhancedPortfolioActor α) (st : Tensor2 α)
    (ha : 0 < actor.action_size) (hE : actor.asset_encoder.WF)
    (hA : actor.AttnWF) (hS : st.WF) :
    ∃ (enc : Tensor2 α) (a1 : EnhancedPortfolioActor α),
      actor.encodeStage e sqrtF rng st = .ok (enc, a1)
      ∧ a1.trunk = actor.trunk
      ∧ a1.layers_initialized = actor.layers_initialized
      ∧ a1.fc1_units = actor.fc1_units
      ∧ a1.fc2_units = actor.fc2_units
      ∧ a1.action_size = actor.action_size := by
  have hfwd := AssetEncoder.forward_spec actor.asset_encoder st
    actor.action_size hE hS
  rcases hu : actor.use_attention with _ | _
  · refine ⟨⟨actor.action_size * actor.asset_encoder.output_size
        + (st.width - actor.action_size
            * actor.asset_encoder.features_per_asset),
      st.rows.map (actor.asset_encoder.encRow actor.action_size)⟩,
      { actor with asset_encoder :=
        { features_per_asset := actor.asset_encoder.features_per_asset
          encoding_size := actor.asset_encoder.encoding_size
          output_size := actor.asset_encoder.output_size
          fc1 := actor.asset_encoder.fc1
          fc2 := actor.asset_encoder.fc2
          first_forward_done := true } }, ?_, rfl, rfl, rfl, rfl, rfl⟩
    simp only [EnhancedPortfolioActor.encodeStage, hfwd, okBind, hu,
      Bool.false_eq_true, if_false, pureExcept]
  · simp only [EnhancedPortfolioActor.encodeStage, hfwd, okBind, hu, if_true]
    simp only [EnhancedPortfolioActor.apply_attention]
    by_cases hcond : 0 < actor.extra_features
        ∧ actor.action_size * actor.features_per_asset
            < actor.action_size * actor.asset_encoder.output_size
              + (st.width - actor.action_size
                  * actor.asset_encoder.features_per_asset)
    · simp only [hcond.1, hcond.2, and_self, if_true]
      obtain ⟨g, hspec⟩ := apply_attention_core_spec_some e sqrtF rng
        { actor with
          use_attention := true
          asset_encoder :=
            { features_per_asset := actor.asset_encoder.features_per_asset
              encoding_size := actor.asset_encoder.encoding_size
              output_size := actor.asset_encoder.output_size
              fc1 := actor.asset_encoder.fc1
              fc2 := actor.asset_encoder.fc2
              first_forward_done := true } }
        ⟨actor.action_size * actor.asset_encoder.output_size
            + (st.width - actor.action_size
                * actor.asset_encoder.features_per_asset)
            - actor.extra_features.toNat,
          (st.rows.map (actor.asset_encoder.encRow actor.action_size)).map
            (fun r => r.take (actor.action_size
                * actor.asset_encoder.output_size
              + (st.width - actor.action_size
                  * actor.asset_encoder.features_per_asset)
              - actor.extra_features.toNat))⟩
        ⟨actor.action_size * actor.asset_encoder.output_size
            + (st.width - actor.action_size
                * actor.asset_encoder.features_per_asset)
            - (actor.action_size * actor.asset_encoder.output_size
              + (st.width - actor.action_size
                  * actor.asset_encoder.features_per_asset)
              - actor.extra_features.toNat),
          (st.rows.map (actor.asset_encoder.encRow actor.action_size)).map
            (fun r => r.drop (actor.action_size
                * actor.asset_encoder.output_size
              + (st.width - actor.action_size
                  * actor.asset_encoder.features_per_asset)
              - actor.extra_features.toNat))⟩
        st.rows.length
        ha
        (by
          intro x hx
          simp only [List.mem_map] at hx
          obtain ⟨r0, ⟨r1, hr1, rfl⟩, rfl⟩ := hx
          simp only [List.length_take]
          rw [AssetEncoder.encRow_length actor.asset_encoder hE
            actor.action_size r1, hS r1 hr1]
          omega)
        hA
        (by simp)
        (by simp)
      exact ⟨_, _, hspec, (attnResultActor_frame _ _ _ _).1,
        (attnResultActor_frame _ _ _ _).2.1,
        (attnResultActor_frame _ _ _ _).2.2.1,
        (attnResultActor_frame _ _ _ _).2.2.2.1,
        (attnResultActor_frame _ _ _ _).2.2.2.2⟩
    · simp only [hcond, if_false]
      obtain ⟨g, hspec⟩ := apply_attention_core_spec_none e sqrtF rng
        { actor with
          use_attention := true
          asset_encoder :=
            { features_per_asset := actor.asset_encoder.features_per_asset
              encoding_size := actor.asset_encoder.encoding_size
              output_size := actor.asset_encoder.output_size
              fc1 := actor.asset_encoder.fc1
              fc2 := actor.asset_encoder.fc2
              first_forward_done := true } }
        ⟨actor.action_size * actor.asset_encoder.output_size
            + (st.width - actor.action_size
                * actor.asset_encoder.features_per_asset),
          st.rows.map (actor.asset_encoder.encRow actor.action_size)⟩
        st.rows.length
        ha
        (by
          intro x hx
          simp only [List.mem_map] at hx
          obtain ⟨r1, hr1, rfl⟩ := hx
          rw [AssetEncoder.encRow_length actor.asset_encoder hE
            actor.action_size r1, hS r1 hr1])
        hA
        (by simp)
      exact ⟨_, _, hspec, (attnResultActor_frame _ _ _ _).1,
        (attnResultActor_frame _ _ _ _).2.1,
        (attnResultActor_frame _ _ _ _).2.2.1,
        (attnResultActor_frame _ _ _ _).2.2.2.1,
        (attnResultActor_frame _ _ _ _).2.2.2.2⟩

/-- C4: `EnhancedPortfolioActor.forward` rebuilds the trunk exactly when no
trunk exists or its input width differs from the freshly computed encoded
width; the rebuilt trunk is `initialize_layers` at the encoded width —
fresh parameters only, with hidden weights in `±1/sqrt(fan_in)`, output
weights in `±3e-4` and zero biases — and after every call the trunk's
input width equals that call's encoded width. -/
theorem C4_trunk_rebuild (rng : ℕ → ℝ) (actor : EnhancedPortfolioActor ℝ)
    (st : Tensor2 ℝ) (ha : 0 < actor.action_size)
    (hf1 : 0 < actor.fc1_units) (hE : actor.asset_encoder.WF)
    (hA : actor.AttnWF) (hS : st.WF) (hrng : ∀ i, |rng i| ≤ 1)
    (hTr : actor.layers_initialized = true →
      ∃ t, actor.trunk = some t
        ∧ t.WF t.fc1.inF actor.fc1_units actor.fc2_units actor.action_size) :
    ∃ (enc : Tensor2 ℝ) (a1 : EnhancedPortfolioActor ℝ) (out : Tensor2 ℝ)
      (a2 : EnhancedPortfolioActor ℝ),
      actor.encodeStage Real.exp Real.sqrt rng st = .ok (enc, a1)
      ∧ actor.forward Real.exp Real.sqrt rng st = .ok (out, a2)
      ∧ a2.trunk
          = (if actor.layers_initialized = true
                ∧ actor.trunkInF = some enc.width
             then actor.trunk
             else some (init_layers Real.sqrt rng enc.width actor.fc1_units
               actor.fc2_units actor.action_size))
      ∧ a2.trunkInF = some enc.width
      ∧ (¬ (actor.layers_initialized = true
            ∧ actor.trunkInF = some enc.width) →
          (∀ row ∈ (init_layers Real.sqrt rng enc.width actor.fc1_units
              actor.fc2_units actor.action_size).fc1.weight,
            ∀ x ∈ row, |x| ≤ 1 / Real.sqrt enc.width)
          ∧ (∀ b ∈ (init_layers Real.sqrt rng enc.width actor.fc1_units
              actor.fc2_units actor.action_size).fc1.bias, b = 0)
          ∧ (∀ row ∈ (init_layers Real.sqrt rng enc.width actor.fc1_units
              actor.fc2_units actor.action_size).fc2.weight,
            ∀ x ∈ row, |x| ≤ 1 / Real.sqrt actor.fc1_units)
          ∧ (∀ b ∈ (init_layers Real.sqrt rng enc.width actor.fc1_units
              actor.fc2_units actor.action_size).fc2.bias, b = 0)
          ∧ (∀ row ∈ (init_layers Real.sqrt rng enc.width actor.fc1_units
              actor.fc2_units actor.action_size).fc3.weight,
            ∀ x ∈ row, |x| ≤ 3 / 10000)
          ∧ (∀ b ∈ (init_layers Real.sqrt rng enc.width actor.fc1_units
              actor.fc2_units actor.action_size).fc3.bias, b = 0)) := by
  obtain ⟨enc, a1, hENC, hT, hL, hF1, hF2, hAS⟩ :=
    encodeStage_spec Real.exp Real.sqrt rng actor st ha hE hA hS
  by_cases hco : actor.layers_initialized = true
      ∧ actor.trunkInF = some enc.width
  · obtain ⟨t0, ht0, ht0W⟩ := hTr hco.1
    have hinf : t0.fc1.inF = enc.width := by
      have h2 := hco.2
      rw [EnhancedPortfolioActor.trunkInF, ht0] at h2
      simpa using h2
    have htW : t0.WF enc.width actor.fc1_units actor.fc2_units
        actor.action_size := hinf ▸ ht0W
    obtain ⟨x0, x1, x2, x3, out, s1, s2, s3, s4, s5⟩ :=
      trunk_stage_ok Real.sqrt t0 enc _ _ _ htW
    have hcond : ¬ (a1.layers_initialized = false
        ∨ a1.trunkInF ≠ some enc.width) := by
      push_neg
      constructor
      · rw [hL, hco.1]
        simp
      · show a1.trunk.map (fun t => t.fc1.inF) = some enc.width
        rw [hT]
        exact hco.2
    have hgd : a1.trunk.getD dummyTrunk = t0 := by
      rw [hT, ht0]
      rfl
    refine ⟨enc, a1, out, a1, hENC, ?_, ?_, ?_, fun hcon => absurd hco hcon⟩
    · simp only [EnhancedPortfolioActor.forward, hENC, okBind,
        if_neg hcond, hgd, s1, s2, s3, s4, s5, pureExcept]
    · rw [if_pos hco]
      exact hT
    · show a1.trunk.map (fun t => t.fc1.inF) = some enc.width
      rw [hT]
      exact hco.2
  · have htW : (init_layers Real.sqrt rng enc.width actor.fc1_units
        actor.fc2_units actor.action_size).WF enc.width actor.fc1_units
          actor.fc2_units actor.action_size :=
      init_layers_WF Real.sqrt rng enc.width actor.fc1_units
        actor.fc2_units actor.action_size
    obtain ⟨x0, x1, x2, x3, out, s1, s2, s3, s4, s5⟩ :=
      trunk_stage_ok Real.sqrt _ enc _ _ _ htW
    have hcond : a1.layers_initialized = false
        ∨ a1.trunkInF ≠ some enc.width := by
      rcases not_and_or.mp hco with h | h
      · left
        rw [hL]
        revert h
        cases actor.layers_initialized <;> simp
      · right
        show a1.trunk.map (fun t => t.fc1.inF) ≠ some enc.width
        rw [hT]
        exact h
    refine ⟨enc, a1, out,
      { a1 with
        trunk := some (init_layers Real.sqrt rng enc.width actor.fc1_units
          actor.fc2_units actor.action_size)
        layers_initialized := true },
      hENC, ?_, ?_, ?_, fun _ => init_layers_bounds rng enc.width
        actor.fc1_units actor.fc2_units actor.action_size hrng⟩
    · simp only [EnhancedPortfolioActor.forward, hENC, okBind, hF1, hF2,
        hAS, if_pos hcond, s1, s2, s3, s4, s5, pureExcept]
    · rw [if_neg hco]
    · show (some (init_layers Real.sqrt rng enc.width actor.fc1_units
        actor.fc2_units actor.action_size)).map (fun t => t.fc1.inF)
          = some enc.width
      rw [Option.map_some']
      exact congrArg some (init_layers_inF Real.sqrt rng enc.width
        actor.fc1_units actor.fc2_units actor.action_size hf1)

/-- Witness for C4: the fresh actor (no trunk yet — the very first call)
on a concrete width-14 batch, with the zero raw-sample stream. -/
theorem C4_trunk_rebuild_witness :
    ∃ (enc : Tensor2 ℝ) (a1 : EnhancedPortfolioActor ℝ) (out : Tensor2 ℝ)
      (a2 : EnhancedPortfolioActor ℝ),
      actorR.encodeStage Real.exp Real.sqrt (fun _ => 0) obsR14
        = .ok (enc, a1)
      ∧ actorR.forward Real.exp Real.sqrt (fun _ => 0) obsR14 = .ok (out, a2)
      ∧ a2.trunk
          = (if actorR.layers_initialized = true
                ∧ actorR.trunkInF = some enc.width
             then actorR.trunk
             else some (init_layers Real.sqrt (fun _ => 0) enc.width
               actorR.fc1_units actorR.fc2_units actorR.action_size))
      ∧ a2.trunkInF = some enc.width
      ∧ (¬ (actorR.layers_initialized = true
            ∧ actorR.trunkInF = some enc.width) →
          (∀ row ∈ (init_layers Real.sqrt (fun _ => 0) enc.width
              actorR.fc1_units actorR.fc2_units actorR.action_size).fc1.weight,
            ∀ x ∈ row, |x| ≤ 1 / Real.sqrt enc.width)
          ∧ (∀ b ∈ (init_layers Real.sqrt (fun _ => 0) enc.width
              actorR.fc1_units actorR.fc2_units actorR.action_size).fc1.bias,
              b = 0)
          ∧ (∀ row ∈ (init_layers Real.sqrt (fun _ => 0) enc.width
              actorR.fc1_units actorR.fc2_units actorR.action_size).fc2.weight,
            ∀ x ∈ row, |x| ≤ 1 / Real.sqrt actorR.fc1_units)
          ∧ (∀ b ∈ (init_layers Real.sqrt (fun _ => 0) enc.width
              actorR.fc1_units actorR.fc2_units actorR.action_size).fc2.bias,
              b = 0)
          ∧ (∀ row ∈ (init_layers Real.sqrt (fun _ => 0) enc.width
              actorR.fc1_units actorR.fc2_units actorR.action_size).fc3.weight,
            ∀ x ∈ row, |x| ≤ 3 / 10000)
          ∧ (∀ b ∈ (init_layers Real.sqrt (fun _ => 0) enc.width
              actorR.fc1_units actorR.fc2_units actorR.action_size).fc3.bias,
              b = 0)) :=
  C4_trunk_rebuild (fun _ => 0) actorR obsR14 (by decide) (by decide)
    (by decide) (fun m h => nomatch h) (by decide) (fun i => by norm_num)
    (fun h => nomatch h)

end Portfolio
